import Mathlib

/-!
Verification development for the SAFE chord/scale engine.

The definitions below are a shallow embedding of the TypeScript sources:
`src/utils/chord-utils.ts` (note tables, `getScaleNotes`, `createChord`) and
the `PianoXL` component in the same source bundle (mode-transition effect,
`getChordName`, `getCurrentChordType`, `getAvailableChordTypes`,
`handleKeyPress`, `adjustLastChordType`, `getBassNote`).  JavaScript numbers
are modelled as `Int` (all arithmetic here is integral), the JavaScript `%`
operator as `Int.tmod` (remainder with the sign of the dividend), objects
used as string-keyed maps as functions into `Option`, and React state reads
inside an event handler as reads of the pre-event state (handlers close over
the state of the render in which they were created).
-/

namespace SAFE

/-- The 17 note spellings of the `NOTE_VALUES` table (12 pitch classes,
sharps and flats sharing a value). -/
inductive NoteName where
  | C | Cs | Db | D | Ds | Eb | E | F | Fs | Gb | G | Gs | Ab | A | As | Bb | B
deriving DecidableEq, Repr, Fintype

/-- Musical modes, from the `MusicMode` union type. -/
inductive MusicMode where
  | free | major | minor | dorian | phrygian | lydian | mixolydian | locrian
deriving DecidableEq, Repr, Fintype

/-- Chord types, from the `ChordType` union type, in the source's grouping.
Names starting with a digit or symbol in the source are prefixed with `dom`
(dominant) or spelled out (`five`, `six`); `#` is rendered `s`, `φ7` is
`phi7`. -/
inductive ChordType where
  | major | minor | dim | augmented | five
  | major7 | minor7 | dom7 | dim7 | m7b5 | phi7 | minorMajor7
  | major9 | minor9 | dom9 | add9 | dom7b9 | dom7s9 | dim9 | aug9
  | dom11 | m11 | major11 | dom13 | dom13sus | dom13b9 | m11b5
  | sus2 | sus4 | dom7sus | dom7sus4 | dom9sus | dom7sus2b9
  | six | minor6 | six9 | m69
  | dom7s11 | dom7b13 | maj9s11 | m9b5 | dom9s11
  | maj7s5 | dom7alt | dom7b5 | dom7s5 | augmented7 | augmentedMajor7
deriving DecidableEq, Repr, Fintype

/-- Instrument sounds, from the `InstrumentType` union type. -/
inductive InstrumentType where
  | balafon | piano | rhodes | steel_drum | pluck | pad
deriving DecidableEq, Repr, Fintype

/-- `NOTE_VALUES`: pitch-class value of each note spelling. -/
def noteValue : NoteName → Nat
  | .C => 0 | .Cs => 1 | .Db => 1 | .D => 2 | .Ds => 3 | .Eb => 3
  | .E => 4 | .F => 5 | .Fs => 6 | .Gb => 6 | .G => 7 | .Gs => 8
  | .Ab => 8 | .A => 9 | .As => 10 | .Bb => 10 | .B => 11

/-- The entries of `NOTE_VALUES` in insertion order (the order
`Object.entries` yields them in `getScaleNotes`). -/
def NOTE_ENTRIES : List NoteName :=
  [.C, .Cs, .Db, .D, .Ds, .Eb, .E, .F, .Fs, .Gb, .G, .Gs, .Ab, .A, .As, .Bb, .B]

/-- Whether a spelling contains the letter `b` (the `note.includes` filter in
`getScaleNotes`). -/
def isFlatName : NoteName → Bool
  | .Db | .Eb | .Gb | .Ab | .Bb => true
  | _ => false

/-- Display string of a note spelling. -/
def noteStr : NoteName → String
  | .C => "C" | .Cs => "C#" | .Db => "Db" | .D => "D" | .Ds => "D#"
  | .Eb => "Eb" | .E => "E" | .F => "F" | .Fs => "F#" | .Gb => "Gb"
  | .G => "G" | .Gs => "G#" | .Ab => "Ab" | .A => "A" | .As => "A#"
  | .Bb => "Bb" | .B => "B"

/-- The twelve-note array `['C','C#','D',...,'B']` used throughout the
component (`getBassNote`, the bass branch of `handleKeyPress`, the
mode-transition effect). -/
def twelveNotes : List NoteName :=
  [.C, .Cs, .D, .Ds, .E, .F, .Fs, .G, .Gs, .A, .As, .B]

/-- `SCALE_PATTERNS`. -/
def SCALE_PATTERNS : MusicMode → List Nat
  | .major => [0, 2, 4, 5, 7, 9, 11]
  | .minor => [0, 2, 3, 5, 7, 8, 10]
  | .dorian => [0, 2, 3, 5, 7, 9, 10]
  | .phrygian => [0, 1, 3, 5, 7, 8, 10]
  | .lydian => [0, 2, 4, 6, 7, 9, 11]
  | .mixolydian => [0, 2, 4, 5, 7, 9, 10]
  | .locrian => [0, 1, 3, 5, 6, 8, 10]
  | .free => [0, 1, 2, 3, 4, 5, 6, 7, 8, 9, 10, 11]

/-- `CHORD_PATTERNS`. -/
def CHORD_PATTERNS : ChordType → List Int
  | .major => [0, 4, 7]
  | .minor => [0, 3, 7]
  | .dim => [0, 3, 6]
  | .augmented => [0, 4, 8]
  | .five => [0, 7]
  | .major7 => [0, 4, 7, 11]
  | .minor7 => [0, 3, 7, 10]
  | .dom7 => [0, 4, 7, 10]
  | .dim7 => [0, 3, 6, 9]
  | .m7b5 => [0, 3, 6, 10]
  | .phi7 => [0, 3, 6, 10]
  | .minorMajor7 => [0, 3, 7, 11]
  | .major9 => [0, 4, 7, 11, 14]
  | .minor9 => [0, 3, 7, 10, 14]
  | .dom9 => [0, 4, 7, 10, 14]
  | .add9 => [0, 4, 7, 14]
  | .dom7b9 => [0, 4, 7, 10, 13]
  | .dom7s9 => [0, 4, 7, 10, 15]
  | .dim9 => [0, 3, 6, 9, 14]
  | .aug9 => [0, 4, 8, 10, 14]
  | .dom11 => [0, 4, 7, 10, 14, 17]
  | .m11 => [0, 3, 7, 10, 14, 17]
  | .major11 => [0, 4, 7, 11, 14, 17]
  | .dom13 => [0, 4, 7, 10, 14, 21]
  | .dom13sus => [0, 5, 7, 10, 14, 21]
  | .dom13b9 => [0, 4, 7, 10, 13, 21]
  | .m11b5 => [0, 3, 6, 10, 14, 17]
  | .sus2 => [0, 2, 7]
  | .sus4 => [0, 5, 7]
  | .dom7sus => [0, 5, 7, 10]
  | .dom7sus4 => [0, 5, 7, 10]
  | .dom9sus => [0, 5, 7, 10, 14]
  | .dom7sus2b9 => [0, 2, 7, 10, 13]
  | .six => [0, 4, 7, 9]
  | .minor6 => [0, 3, 7, 9]
  | .six9 => [0, 4, 7, 9, 14]
  | .m69 => [0, 3, 7, 9, 14]
  | .dom7s11 => [0, 4, 7, 10, 18]
  | .dom7b13 => [0, 4, 7, 10, 20]
  | .maj9s11 => [0, 4, 7, 11, 14, 18]
  | .m9b5 => [0, 3, 6, 10, 14]
  | .dom9s11 => [0, 4, 7, 10, 14, 18]
  | .maj7s5 => [0, 4, 8, 11]
  | .dom7alt => [0, 4, 8, 10, 15]
  | .dom7b5 => [0, 4, 6, 10]
  | .dom7s5 => [0, 4, 8, 10]
  | .augmented7 => [0, 4, 8, 10]
  | .augmentedMajor7 => [0, 4, 8, 11]

/-- The raw `ChordType` string of the source, used by `createChord` when it
builds the default name. -/
def chordTypeRaw : ChordType → String
  | .major => "major" | .minor => "minor" | .dim => "dim"
  | .augmented => "augmented" | .five => "5"
  | .major7 => "major7" | .minor7 => "minor7" | .dom7 => "7"
  | .dim7 => "dim7" | .m7b5 => "m7b5" | .phi7 => "φ7"
  | .minorMajor7 => "minorMajor7"
  | .major9 => "major9" | .minor9 => "minor9" | .dom9 => "9"
  | .add9 => "add9" | .dom7b9 => "7b9" | .dom7s9 => "7#9"
  | .dim9 => "dim9" | .aug9 => "aug9"
  | .dom11 => "11" | .m11 => "m11" | .major11 => "major11"
  | .dom13 => "13" | .dom13sus => "13sus" | .dom13b9 => "13b9"
  | .m11b5 => "m11b5"
  | .sus2 => "sus2" | .sus4 => "sus4" | .dom7sus => "7sus"
  | .dom7sus4 => "7sus4" | .dom9sus => "9sus" | .dom7sus2b9 => "7sus2b9"
  | .six => "6" | .minor6 => "minor6" | .six9 => "69" | .m69 => "m69"
  | .dom7s11 => "7#11" | .dom7b13 => "7b13" | .maj9s11 => "maj9#11"
  | .m9b5 => "m9b5" | .dom9s11 => "9#11" | .maj7s5 => "maj7#5"
  | .dom7alt => "7alt" | .dom7b5 => "7b5" | .dom7s5 => "7#5"
  | .augmented7 => "augmented7" | .augmentedMajor7 => "augmentedMajor7"

/-- `ALL_CHORD_TYPES`: full list of chord types in preference/cycling order
(used in free mode). -/
def ALL_CHORD_TYPES : List ChordType :=
  [.major, .minor, .dim, .augmented, .five,
   .major7, .minor7, .dom7, .dim7, .m7b5, .phi7, .minorMajor7,
   .major9, .minor9, .dom9, .add9, .dom7b9, .dom7s9, .dim9, .aug9,
   .dom11, .m11, .major11, .dom13, .dom13sus, .dom13b9, .m11b5,
   .sus2, .sus4, .dom7sus, .dom7sus4, .dom9sus, .dom7sus2b9,
   .six, .minor6, .six9, .m69,
   .dom7s11, .dom7b13, .maj9s11, .m9b5, .dom9s11,
   .maj7s5, .dom7alt, .dom7b5, .dom7s5,
   .augmented7, .augmentedMajor7]

/-- `MAJOR_SCALE_CHORDS`: diatonic chord-type table keyed by scale degree
(string key in the source); absent keys yield `[]`, matching the
`MAJOR_SCALE_CHORDS[scaleDegree] || []` lookup. -/
def MAJOR_SCALE_CHORDS : Nat → List ChordType
  | 1 => [.major, .major7, .major9, .add9]
  | 2 => [.minor, .minor7, .minor9]
  | 3 => [.minor, .minor7, .minor9]
  | 4 => [.major, .major7, .major9, .add9]
  | 5 => [.major, .dom7, .dom9]
  | 6 => [.minor, .minor7, .minor9]
  | 7 => [.dim, .dim7, .m7b5]
  | _ => []

/-- `MINOR_SCALE_CHORDS`, with the same defaulting as the major table. -/
def MINOR_SCALE_CHORDS : Nat → List ChordType
  | 1 => [.minor, .minor7, .minor9, .m11]
  | 2 => [.dim, .dim7, .m7b5]
  | 3 => [.major, .major7, .add9]
  | 4 => [.minor, .minor7, .minor9]
  | 5 => [.minor, .minor7, .minor9]
  | 6 => [.major, .major7, .add9]
  | 7 => [.major, .dom7, .dom9]
  | _ => []

/-- The `Chord` record of `types/music`. -/
structure Chord where
  root : NoteName
  type : ChordType
  notes : List Int
  name : String
deriving DecidableEq, Repr

/-- `getScaleNotes`: for each pattern interval, the first `NOTE_VALUES`
entry with the matching value whose spelling contains no `b`. -/
def getScaleNotes (root : NoteName) (mode : MusicMode) : List NoteName :=
  (SCALE_PATTERNS mode).filterMap (fun interval =>
    NOTE_ENTRIES.find? (fun n =>
      decide (noteValue n = (noteValue root + interval) % 12) && !(isFlatName n)))

/-- `createChord`: absolute pitches are the pattern offsets added to the
root value plus 60 (middle C); the pattern lookup cannot fail over the
closed `ChordType` enumeration, but the defensive `null` branch of the
source is kept in the `Option` result type. -/
def createChord (root : NoteName) (type : ChordType) : Option Chord :=
  let pattern := CHORD_PATTERNS type
  some { root := root
         type := type
         notes := pattern.map (fun interval => (noteValue root : Int) + interval + 60)
         name := noteStr root ++ chordTypeRaw type }

/-- `sharpToFlatMap` is imported from the module `types/music`, which is not
part of the provided sources.  Modelled from the spec: enharmonic sharp
spellings map to their canonical flat spelling, every other spelling maps to
itself (sharp-to-flat conversion is total over the display spellings). -/
def sharpToFlatMap : NoteName → NoteName
  | .Cs => .Db | .Ds => .Eb | .Fs => .Gb | .Gs => .Ab | .As => .Bb
  | n => n

/-- Props of the `PianoXL` component that the engine reads. -/
structure PianoProps where
  selectedKey : NoteName
  mode : MusicMode
  octave : Int
  inversion : Int
  selectedSound : InstrumentType
  useFlats : Bool
  selectedBassOffset : Option Int

/-- React state of the `PianoXL` component.  The string-keyed object
`chordTypeIndices` is modelled as a function into `Option Nat` (`none` is a
missing key). -/
structure PianoState where
  scaleNotes : List NoteName
  currentChord : Option Chord
  lastPressedNote : Option NoteName
  chordTypeIndices : NoteName → Option Nat
  prevMode : MusicMode

/-- Setting one key of the `chordTypeIndices` object. -/
def updateIndex (m : NoteName → Option Nat) (k : NoteName) (v : Nat) :
    NoteName → Option Nat :=
  fun n => if n = k then some v else m n

/-- `getAvailableChordTypes`: chord types eligible for a note, from the full
list in free mode and from the degree tables otherwise. -/
def getAvailableChordTypes (mode : MusicMode) (scaleNotes : List NoteName)
    (note : NoteName) : List ChordType :=
  if mode = MusicMode.free then
    ALL_CHORD_TYPES
  else if note ∉ scaleNotes then
    []
  else
    let scaleIndex := scaleNotes.findIdx (fun n => decide (n = note))
    let scaleDegree := scaleIndex + 1
    if mode = MusicMode.minor then MINOR_SCALE_CHORDS scaleDegree
    else MAJOR_SCALE_CHORDS scaleDegree

/-- `getCurrentChordType`: index lookup defaults to 0 (`|| 0`), out-of-range
lookups and the empty eligible list default to `major` (`|| 'major'`). -/
def getCurrentChordType (mode : MusicMode) (scaleNotes : List NoteName)
    (chordTypeIndices : NoteName → Option Nat) (note : NoteName) : ChordType :=
  if mode = MusicMode.free then
    (ALL_CHORD_TYPES.get? ((chordTypeIndices note).getD 0)).getD ChordType.major
  else
    let availableTypes := getAvailableChordTypes mode scaleNotes note
    let currentIndex := (chordTypeIndices note).getD 0
    if availableTypes.length = 0 then ChordType.major
    else (availableTypes.get? (currentIndex % availableTypes.length)).getD ChordType.major

/-- `getBassNote`: display suffix for the bass.  A negative JavaScript
remainder makes `notes[bassIndex]` come out `undefined`, which the template
literal renders as the text `undefined`. -/
def getBassNote (root : NoteName) (bassOffset : Option Int) : String :=
  match bassOffset with
  | none => ""
  | some off =>
    if off = 0 then ""
    else
      match twelveNotes.findIdx? (fun n => decide (n = root)) with
      | none => ""
      | some rootIndex =>
        let bassIndex : Int := ((rootIndex : Int) + off).tmod 12
        match (if 0 ≤ bassIndex then twelveNotes.get? bassIndex.toNat else none) with
        | some n => "/" ++ noteStr n
        | none => "/undefined"

/-- `convertNoteDisplay`. -/
def convertNoteDisplay (mode : MusicMode) (useFlats : Bool) (note : NoteName) :
    NoteName :=
  if mode = MusicMode.free ∧ useFlats then sharpToFlatMap note else note

/-- The chord-type suffix appended by the `switch` in `getChordName`. -/
def chordTypeSuffix : ChordType → String
  | .major => "" | .minor => "m" | .dim => "dim" | .augmented => "aug"
  | .five => "5"
  | .major7 => "maj7" | .minor7 => "m7" | .dom7 => "7" | .dim7 => "dim7"
  | .m7b5 => "m7b5" | .phi7 => "φ7" | .minorMajor7 => "mMaj7"
  | .major9 => "maj9" | .minor9 => "m9" | .dom9 => "9" | .add9 => "add9"
  | .dom7b9 => "7b9" | .dom7s9 => "7#9" | .dim9 => "dim9" | .aug9 => "aug9"
  | .dom11 => "11" | .m11 => "m11" | .major11 => "maj11" | .dom13 => "13"
  | .dom13sus => "13sus" | .dom13b9 => "13b9" | .m11b5 => "m11b5"
  | .sus2 => "sus2" | .sus4 => "sus4" | .dom7sus => "7sus"
  | .dom7sus4 => "7sus4" | .dom9sus => "9sus" | .dom7sus2b9 => "7sus2b9"
  | .six => "6" | .minor6 => "m6" | .six9 => "69" | .m69 => "m69"
  | .dom7s11 => "7#11" | .dom7b13 => "7b13" | .maj9s11 => "maj9#11"
  | .m9b5 => "m9b5" | .dom9s11 => "9#11" | .maj7s5 => "maj7#5"
  | .dom7alt => "7alt" | .dom7b5 => "7b5" | .dom7s5 => "7#5"
  | .augmented7 => "aug7" | .augmentedMajor7 => "augMaj7"

/-- The display name before the bass suffix: converted note spelling plus
the chord-type suffix. -/
def chordBaseName (props : PianoProps) (s : PianoState) (note : NoteName) :
    String :=
  noteStr (convertNoteDisplay props.mode props.useFlats note)
    ++ chordTypeSuffix (getCurrentChordType props.mode s.scaleNotes s.chordTypeIndices note)

/-- `getChordName`: empty for out-of-scale notes in non-free modes; the bass
suffix is appended only when the note is the recorded last-pressed note and
the bass offset is non-null. -/
def getChordName (props : PianoProps) (s : PianoState) (note : NoteName) :
    String :=
  if props.mode ≠ MusicMode.free ∧ note ∉ s.scaleNotes then ""
  else
    let name := chordBaseName props s note
    if s.lastPressedNote = some note ∧ props.selectedBassOffset ≠ none then
      name ++ getBassNote note props.selectedBassOffset
    else name

/-- The octave shift of `handleKeyPress` and `updateChordDisplay`
(`if (octave !== 0) modifiedNote += 12 * octave`). -/
def octaveShift (octave : Int) (notes : List Int) : List Int :=
  notes.map (fun n => if octave ≠ 0 then n + 12 * octave else n)

/-- One positive inversion step: `modifiedNotes[0] += 12` followed by
`push(shift())`. -/
def invStepUp : List Int → List Int
  | [] => []
  | a :: rest => rest ++ [a + 12]

/-- One negative inversion step: `modifiedNotes[len-1] -= 12` followed by
`unshift(pop())`. -/
def invStepDown (l : List Int) : List Int :=
  match l.getLast? with
  | none => []
  | some b => (b - 12) :: l.dropLast

/-- The inversion loop of `handleKeyPress`: `|inversion|` steps, positive
steps when `inversion > 0`, negative steps otherwise. -/
def applyInversion (inversion : Int) (notes : List Int) : List Int :=
  if inversion = 0 then notes
  else if inversion > 0 then invStepUp^[inversion.natAbs] notes
  else invStepDown^[inversion.natAbs] notes

/-- Everything observable about one `handleKeyPress` invocation: the next
state and the side effects (audio calls and callbacks); `none` in an effect
field means the call was not made. -/
structure PressOutcome where
  state : PianoState
  playedChord : Option (List Int × InstrumentType)
  playedBass : Option Int
  chordChangeEvent : Option Chord
  noteSelectEvent : Option NoteName

/-- `handleKeyPress`.  State reads (`lastPressedNote`, `scaleNotes`,
`chordTypeIndices`) see the pre-press state; `setLastPressedNote` and
`setCurrentChord` take effect in the returned state. -/
def handleKeyPress (props : PianoProps) (s : PianoState) (note : NoteName) :
    PressOutcome :=
  if props.mode ≠ MusicMode.free ∧ note ∉ s.scaleNotes then
    ⟨s, none, none, none, none⟩
  else
    let chordType := getCurrentChordType props.mode s.scaleNotes s.chordTypeIndices note
    match createChord note chordType with
    | none => ⟨{ s with lastPressedNote := some note }, none, none, none, none⟩
    | some chord =>
      let modifiedNotes := applyInversion props.inversion (octaveShift props.octave chord.notes)
      let bassPlayed : Option Int :=
        match props.selectedBassOffset with
        | none => none
        | some off =>
          if s.lastPressedNote = some note then
            match twelveNotes.findIdx? (fun n => decide (n = note)) with
            | none => none
            | some rootIndex =>
              if off = 0 then some (chord.notes.headD 0 - 12)
              else some (48 + ((rootIndex : Int) + off).tmod 12)
          else none
      let chordName := getChordName props s note
      let modifiedChord : Chord := { chord with notes := modifiedNotes, name := chordName }
      ⟨{ s with lastPressedNote := some note, currentChord := some modifiedChord },
       some (modifiedNotes, props.selectedSound), bassPlayed,
       some modifiedChord, some note⟩

/-- Direction argument of `adjustLastChordType`. -/
inductive AdjustDirection where
  | up | down
deriving DecidableEq, Repr

/-- `adjustLastChordType`: cycles the chord-type index of the last-pressed
note through the eligible list, wrapping in both directions. -/
def adjustLastChordType (props : PianoProps) (s : PianoState)
    (direction : AdjustDirection) : PianoState :=
  match s.lastPressedNote with
  | none => s
  | some lastNote =>
    let availableTypes :=
      if props.mode = MusicMode.free then ALL_CHORD_TYPES
      else getAvailableChordTypes props.mode s.scaleNotes lastNote
    if props.mode ≠ MusicMode.free ∧ lastNote ∉ s.scaleNotes then s
    else if availableTypes.length = 0 then s
    else
      let currentIndex := (s.chordTypeIndices lastNote).getD 0
      let newIndex :=
        match direction with
        | .up => (currentIndex + 1) % availableTypes.length
        | .down => (currentIndex + availableTypes.length - 1) % availableTypes.length
      { s with chordTypeIndices := updateIndex s.chordTypeIndices lastNote newIndex }

/-- The mode-transition `useEffect` of `PianoXL` (the `if (selectedKey)`
guard is always taken: note names are non-empty strings).  Entering free
mode adds default cursor entries for the notes that were not in the previous
scale; every other mode change clears the cursor map. -/
def modeTransition (selectedKey : NoteName) (mode : MusicMode) (s : PianoState) :
    PianoState :=
  let base :=
    if mode = MusicMode.free ∧ mode ≠ s.prevMode then
      let prevScaleNotes := getScaleNotes selectedKey s.prevMode
      let newlyAvailableNotes := twelveNotes.filter (fun note => !(decide (note ∈ prevScaleNotes)))
      let updatedIndices := newlyAvailableNotes.foldl
        (fun m note => if m note = none then updateIndex m note 0 else m)
        s.chordTypeIndices
      { s with scaleNotes := twelveNotes, chordTypeIndices := updatedIndices }
    else if s.prevMode = MusicMode.free ∧ mode ≠ MusicMode.free then
      { s with scaleNotes := getScaleNotes selectedKey mode,
               chordTypeIndices := fun _ => none }
    else if mode ≠ s.prevMode then
      { s with scaleNotes := getScaleNotes selectedKey mode,
               chordTypeIndices := fun _ => none }
    else
      { s with scaleNotes := getScaleNotes selectedKey mode }
  let base2 := if mode ≠ s.prevMode then { base with currentChord := none } else base
  { base2 with prevMode := mode }

/-! ## Fixtures: concrete props and states used by scenarios and witnesses -/

/-- Props: key C, major mode, octave 0, inversion 0, no bass offset. -/
def cMajorProps : PianoProps := ⟨.C, .major, 0, 0, .piano, false, none⟩

/-- Fresh state in C major: scale computed, empty cursor map, nothing
pressed yet. -/
def cMajorState : PianoState :=
  ⟨getScaleNotes .C .major, none, none, fun _ => none, .major⟩

/-- State reached from `cMajorState` by pressing C and then advancing the
chord-type cursor up once. -/
def cMajorAfterAdvance : PianoState :=
  adjustLastChordType cMajorProps (handleKeyPress cMajorProps cMajorState .C).state .up

/-! ## Claim theorems -/

/-- C1: chord building is anchored at middle C: for every root and chord
type, the built chord's notes are the type's semitone offsets each added to
`index(root) + 60`; for root C in major mode with octave 0 and inversion 0
the default cursor selects chord type `major` and the press produces notes
`[60, 64, 67]` with display name `C`, and after one `advance(up)` the chord
type is `major7` with notes `[60, 64, 67, 71]` and name `Cmaj7`. -/
theorem chord_anchor_middle_c :
    (∀ (root : NoteName) (type : ChordType), ∃ c,
      createChord root type = some c ∧
      c.notes = (CHORD_PATTERNS type).map
        (fun interval => (noteValue root : Int) + interval + 60)) ∧
    getCurrentChordType MusicMode.major cMajorState.scaleNotes
        cMajorState.chordTypeIndices .C = ChordType.major ∧
    (handleKeyPress cMajorProps cMajorState .C).playedChord
        = some ([60, 64, 67], InstrumentType.piano) ∧
    ((handleKeyPress cMajorProps cMajorState .C).chordChangeEvent.map Chord.notes)
        = some [60, 64, 67] ∧
    ((handleKeyPress cMajorProps cMajorState .C).chordChangeEvent.map Chord.name)
        = some "C" ∧
    getCurrentChordType MusicMode.major cMajorAfterAdvance.scaleNotes
        cMajorAfterAdvance.chordTypeIndices .C = ChordType.major7 ∧
    (handleKeyPress cMajorProps cMajorAfterAdvance .C).playedChord
        = some ([60, 64, 67, 71], InstrumentType.piano) ∧
    ((handleKeyPress cMajorProps cMajorAfterAdvance .C).chordChangeEvent.map Chord.name)
        = some "Cmaj7" ∧
    ((handleKeyPress cMajorProps cMajorAfterAdvance .C).chordChangeEvent.map Chord.notes)
        = some [60, 64, 67, 71] :=
  ⟨fun root type => ⟨_, rfl, rfl⟩, by decide⟩

/-- C9: in a non-free mode, pressing a note outside the active scale is a
no-op — the state is unchanged and no audio call or callback is produced —
and such a note has zero eligible chord types. -/
theorem out_of_scale_press_noop (props : PianoProps) (s : PianoState)
    (note : NoteName) (hmode : props.mode ≠ MusicMode.free)
    (hnote : note ∉ s.scaleNotes) :
    handleKeyPress props s note = ⟨s, none, none, none, none⟩ ∧
    getAvailableChordTypes props.mode s.scaleNotes note = [] := by
  constructor
  · unfold handleKeyPress
    rw [if_pos ⟨hmode, hnote⟩]
  · unfold getAvailableChordTypes
    rw [if_neg hmode, if_pos hnote]

theorem out_of_scale_press_noop_witness :
    handleKeyPress cMajorProps cMajorState .Cs = ⟨cMajorState, none, none, none, none⟩ ∧
    getAvailableChordTypes cMajorProps.mode cMajorState.scaleNotes .Cs = [] :=
  out_of_scale_press_noop cMajorProps cMajorState .Cs (by decide) (by decide)

/-- C10: `adjustLastChordType` recomputes the eligible list for the current
mode and degree and moves the last-pressed note's cursor to
`(index + 1) mod length` or `(index + length - 1) mod length` (the wrapped
decrement), and is a no-op when no note was ever pressed or the eligible
list is empty. -/
theorem advance_cursor_wraps (props : PianoProps) (s : PianoState) :
    (s.lastPressedNote = none → ∀ d, adjustLastChordType props s d = s) ∧
    (∀ n, s.lastPressedNote = some n →
      (if props.mode = MusicMode.free then ALL_CHORD_TYPES
       else getAvailableChordTypes props.mode s.scaleNotes n) = [] →
      ∀ d, adjustLastChordType props s d = s) ∧
    (∀ n L, s.lastPressedNote = some n →
      (props.mode = MusicMode.free ∨ n ∈ s.scaleNotes) →
      L = (if props.mode = MusicMode.free then ALL_CHORD_TYPES
           else getAvailableChordTypes props.mode s.scaleNotes n) →
      L ≠ [] →
      (adjustLastChordType props s .up).chordTypeIndices n
          = some (((s.chordTypeIndices n).getD 0 + 1) % L.length) ∧
      (adjustLastChordType props s .down).chordTypeIndices n
          = some (((s.chordTypeIndices n).getD 0 + L.length - 1) % L.length)) := by
  refine ⟨?_, ?_, ?_⟩
  · intro h d
    unfold adjustLastChordType
    rw [h]
  · intro n hn hL d
    unfold adjustLastChordType
    rw [hn]
    by_cases hg : props.mode ≠ MusicMode.free ∧ n ∉ s.scaleNotes
    · simp only [if_pos hg]
    · simp [if_neg hg, hL]
  · intro n L hn hin hL hne
    have hg : ¬ (props.mode ≠ MusicMode.free ∧ n ∉ s.scaleNotes) := by
      rcases hin with h | h
      · exact fun hc => hc.1 h
      · exact fun hc => hc.2 h
    have hlen : ((if props.mode = MusicMode.free then ALL_CHORD_TYPES
        else getAvailableChordTypes props.mode s.scaleNotes n)).length ≠ 0 := by
      rw [← hL]
      simpa [List.length_eq_zero] using hne
    constructor <;>
      · unfold adjustLastChordType
        rw [hn]
        simp only [if_neg hg, if_neg hlen, updateIndex, hL]
        simp

theorem advance_cursor_wraps_witness :
    (adjustLastChordType cMajorProps
        ⟨getScaleNotes .C .major, none, some .C, fun _ => none, .major⟩ .up).chordTypeIndices .C
      = some 1 ∧
    (adjustLastChordType cMajorProps
        ⟨getScaleNotes .C .major, none, some .C, fun _ => none, .major⟩ .down).chordTypeIndices .C
      = some 3 := by
  have h := (advance_cursor_wraps cMajorProps
      ⟨getScaleNotes .C .major, none, some .C, fun _ => none, .major⟩).2.2 .C
      [ChordType.major, .major7, .major9, .add9] rfl (Or.inr (by decide)) (by decide) (by decide)
  exact ⟨h.1.trans (by decide), h.2.trans (by decide)⟩

/-! ## Inversion rotation lemmas -/

/-- The notes of a built chord (empty only for the unreachable defensive
branch of `createChord`). -/
def chordNotesOf (root : NoteName) (type : ChordType) : List Int :=
  match createChord root type with
  | some c => c.notes
  | none => []

theorem invStepDown_invStepUp (l : List Int) : invStepDown (invStepUp l) = l := by
  cases l with
  | nil => rfl
  | cons a rest =>
    show invStepDown (rest ++ [a + 12]) = a :: rest
    unfold invStepDown
    rw [List.getLast?_concat, List.dropLast_concat]
    simp

theorem invStepUp_invStepDown (l : List Int) (h : l ≠ []) :
    invStepUp (invStepDown l) = l := by
  induction l using List.reverseRecOn with
  | nil => exact absurd rfl h
  | append_singleton init b _ =>
    unfold invStepDown
    rw [List.getLast?_concat, List.dropLast_concat]
    show init ++ [b - 12 + 12] = init ++ [b]
    simp

theorem invStepDown_length (l : List Int) : (invStepDown l).length = l.length := by
  induction l using List.reverseRecOn with
  | nil => rfl
  | append_singleton init b _ =>
    unfold invStepDown
    rw [List.getLast?_concat, List.dropLast_concat]
    simp

theorem invStepDown_iter_length (n : Nat) (l : List Int) :
    (invStepDown^[n] l).length = l.length := by
  induction n generalizing l with
  | zero => rfl
  | succ n ih =>
    rw [Function.iterate_succ_apply, ih, invStepDown_length]

theorem invStepDown_iter_invStepUp_iter (n : Nat) (l : List Int) :
    invStepDown^[n] (invStepUp^[n] l) = l := by
  induction n generalizing l with
  | zero => rfl
  | succ n ih =>
    rw [Function.iterate_succ_apply' (f := invStepUp),
        Function.iterate_succ_apply (f := invStepDown),
        invStepDown_invStepUp, ih]

theorem invStepUp_iter_invStepDown_iter (n : Nat) (l : List Int) (h : l ≠ []) :
    invStepUp^[n] (invStepDown^[n] l) = l := by
  induction n generalizing l with
  | zero => rfl
  | succ n ih =>
    have hd : invStepDown l ≠ [] := by
      intro hc
      apply h
      have := invStepDown_length l
      rw [hc] at this
      exact List.length_eq_zero.mp this.symm
    rw [Function.iterate_succ_apply (f := invStepDown),
        Function.iterate_succ_apply' (f := invStepUp),
        ih (invStepDown l) hd, invStepUp_invStepDown l h]

theorem chordNotesOf_ne_nil (root : NoteName) (type : ChordType) :
    chordNotesOf root type ≠ [] := by
  unfold chordNotesOf createChord
  simp only [Option.some.injEq]
  intro hc
  have : (CHORD_PATTERNS type) = [] := List.map_eq_nil_iff.mp hc
  revert this
  cases type <;> decide

/-- C6 amended: inversion is a reversible rotation — building with
inversion `k` and then applying `k.natAbs` steps of the opposite sign
returns the very list (hence the same absolute pitch set) obtained by
building with inversion 0, for every root, chord type, octave and `k`; each
positive step raises the first note (the lowest of a freshly built chord)
by 12 and moves it to the end, and each negative step lowers the last note
by 12 and moves it to the front, preserving the order of the remaining
notes. -/
theorem inversion_roundtrip_amended :
    (∀ (root : NoteName) (type : ChordType) (octave : Int) (k : Int),
      (if 0 ≤ k then invStepDown^[k.natAbs] else invStepUp^[k.natAbs])
          (applyInversion k (octaveShift octave (chordNotesOf root type)))
        = octaveShift octave (chordNotesOf root type)) ∧
    (∀ (a : Int) (rest : List Int), invStepUp (a :: rest) = rest ++ [a + 12]) ∧
    (∀ (init : List Int) (b : Int), invStepDown (init ++ [b]) = (b - 12) :: init) := by
  refine ⟨?_, fun a rest => rfl, ?_⟩
  · intro root type octave k
    have hne : octaveShift octave (chordNotesOf root type) ≠ [] := by
      unfold octaveShift
      simpa [List.map_eq_nil_iff] using chordNotesOf_ne_nil root type
    unfold applyInversion
    rcases lt_trichotomy k 0 with hk | hk | hk
    · rw [if_neg (by omega), if_neg (by omega), if_neg (by omega)]
      exact invStepUp_iter_invStepDown_iter _ _ hne
    · subst hk
      rfl
    · rw [if_pos (by omega), if_neg (by omega), if_pos (by omega)]
      exact invStepDown_iter_invStepUp_iter _ _
  · intro init b
    unfold invStepDown
    rw [List.getLast?_concat, List.dropLast_concat]

/-- Modelled from the claim's words: the positive inversion step the claim
describes — raise the lowest note by 12 and move it to the end. -/
def raiseLowestToEnd (l : List Int) : List Int :=
  match l.min? with
  | none => []
  | some m => (l.erase m) ++ [m + 12]

/-- C6 counterexample: building C `major9` (octave 0) with inversion 5, the
input to the fifth positive step has head 74 but minimum 72, so the code's
step (which rotates the first note) no longer raises the lowest note: the
code yields `[72, 76, 79, 83, 86]` while the claim's lowest-note rotation
yields `[74, 76, 79, 83, 84]`. -/
theorem inversion_lowest_counterexample :
    applyInversion 5 (octaveShift 0 (chordNotesOf .C .major9)) = [72, 76, 79, 83, 86] ∧
    (invStepUp^[4] (octaveShift 0 (chordNotesOf .C .major9))).head? = some 74 ∧
    (invStepUp^[4] (octaveShift 0 (chordNotesOf .C .major9))).min? = some 72 ∧
    raiseLowestToEnd^[5] (octaveShift 0 (chordNotesOf .C .major9)) = [74, 76, 79, 83, 84] ∧
    ([72, 76, 79, 83, 86] : List Int) ≠ [74, 76, 79, 83, 84] := by
  decide

/-- C7: for every root and every non-free mode, `getScaleNotes` returns
exactly 7 notes — the mode's pattern offsets (sorted ascending from 0)
applied to the root modulo 12, spelled with the sharp-or-natural entry of
the note table — and in free mode it returns all 12 pitch classes. -/
theorem scale_notes_shape :
    (∀ (root : NoteName) (mode : MusicMode), mode ≠ MusicMode.free →
      (getScaleNotes root mode).length = 7 ∧
      getScaleNotes root mode
        = (SCALE_PATTERNS mode).map
            (fun i => twelveNotes.getD ((noteValue root + i) % 12) NoteName.C) ∧
      (SCALE_PATTERNS mode).Pairwise (· < ·) ∧
      (SCALE_PATTERNS mode).head? = some 0) ∧
    (∀ root : NoteName, (getScaleNotes root MusicMode.free).length = 12 ∧
      ∀ n : NoteName, isFlatName n = false → n ∈ getScaleNotes root MusicMode.free) := by
  constructor
  · decide
  · decide

theorem scale_notes_shape_witness :
    (getScaleNotes .C .major).length = 7 ∧
    getScaleNotes .C .major
      = (SCALE_PATTERNS .major).map
          (fun i => twelveNotes.getD ((noteValue .C + i) % 12) NoteName.C) ∧
    (SCALE_PATTERNS .major).Pairwise (· < ·) ∧
    (SCALE_PATTERNS .major).head? = some 0 :=
  scale_notes_shape.1 .C .major (by decide)

/-- C8: in free mode the eligible list is the full fixed chord-type list in
its canonical cycling order for every note; in every non-free mode the
eligible list of an in-scale note is the minor table's row for its degree
when the mode is minor and the major table's row otherwise (so dorian,
phrygian, lydian, mixolydian and locrian all fall back to the major table),
and each such row has 3 or 4 entries. -/
theorem eligible_chord_types_tables :
    (∀ (sn : List NoteName) (note : NoteName),
      getAvailableChordTypes MusicMode.free sn note = ALL_CHORD_TYPES) ∧
    (∀ t : ChordType, t ∈ ALL_CHORD_TYPES) ∧
    (∀ (mode : MusicMode), mode ≠ MusicMode.free → ∀ (root note : NoteName),
      note ∈ getScaleNotes root mode →
      getAvailableChordTypes mode (getScaleNotes root mode) note
        = (if mode = MusicMode.minor then MINOR_SCALE_CHORDS else MAJOR_SCALE_CHORDS)
            ((getScaleNotes root mode).findIdx (fun n => decide (n = note)) + 1) ∧
      3 ≤ (getAvailableChordTypes mode (getScaleNotes root mode) note).length ∧
      (getAvailableChordTypes mode (getScaleNotes root mode) note).length ≤ 4) := by
  refine ⟨fun sn note => rfl, by decide, ?_⟩
  decide

theorem eligible_chord_types_tables_witness :
    getAvailableChordTypes .dorian (getScaleNotes .C .dorian) .D
      = (if MusicMode.dorian = MusicMode.minor then MINOR_SCALE_CHORDS else MAJOR_SCALE_CHORDS)
          ((getScaleNotes .C .dorian).findIdx (fun n => decide (n = NoteName.D)) + 1) ∧
    3 ≤ (getAvailableChordTypes .dorian (getScaleNotes .C .dorian) .D).length ∧
    (getAvailableChordTypes .dorian (getScaleNotes .C .dorian) .D).length ≤ 4 :=
  eligible_chord_types_tables.2.2 .dorian (by decide) .C .D (by decide)

/-! ## Mode-transition cursor policy -/

theorem foldIndices_lookup (l : List NoteName) (m : NoteName → Option Nat)
    (n : NoteName) :
    (l.foldl (fun m note => if m note = none then updateIndex m note 0 else m) m) n
      = if n ∈ l ∧ m n = none then some 0 else m n := by
  induction l generalizing m with
  | nil => simp
  | cons a tl ih =>
    rw [List.foldl_cons, ih]
    by_cases hma : m a = none
    · rw [if_pos hma]
      by_cases hna : n = a
      · subst hna
        simp [updateIndex, hma]
      · simp [updateIndex, hna]
    · rw [if_neg hma]
      by_cases hna : n = a
      · subst hna
        simp [hma]
      · simp [hna]

/-- C2: mode-transition reset policy of the per-note chord cursor — on a
transition from a non-free mode into free mode, entries of notes already in
the old scale are preserved and notes newly available under free mode with
no entry get a default entry of index 0; on a transition from free to a
non-free mode, or between two distinct non-free modes, the cursor map is
cleared entirely. -/
theorem cursor_mode_transition_policy (selectedKey : NoteName)
    (mode : MusicMode) (s : PianoState) :
    (s.prevMode ≠ MusicMode.free → mode = MusicMode.free →
      (∀ n, n ∈ getScaleNotes selectedKey s.prevMode →
        (modeTransition selectedKey mode s).chordTypeIndices n
          = s.chordTypeIndices n) ∧
      (∀ n, n ∈ twelveNotes → n ∉ getScaleNotes selectedKey s.prevMode →
        s.chordTypeIndices n = none →
        (modeTransition selectedKey mode s).chordTypeIndices n = some 0)) ∧
    ((s.prevMode = MusicMode.free ∧ mode ≠ MusicMode.free) ∨
     (s.prevMode ≠ MusicMode.free ∧ mode ≠ MusicMode.free ∧ mode ≠ s.prevMode) →
      ∀ n, (modeTransition selectedKey mode s).chordTypeIndices n = none) := by
  constructor
  · intro hprev hmode
    subst hmode
    have hcond : MusicMode.free = MusicMode.free ∧ MusicMode.free ≠ s.prevMode :=
      ⟨rfl, fun h => hprev h.symm⟩
    constructor
    · intro n hn
      unfold modeTransition
      rw [if_pos hcond]
      by_cases hch : MusicMode.free ≠ s.prevMode
      · simp only [if_pos hch]
        rw [foldIndices_lookup]
        rw [if_neg]
        rintro ⟨hmem, -⟩
        rw [List.mem_filter] at hmem
        have hni := hmem.2
        simp only [Bool.not_eq_true', decide_eq_false_iff_not] at hni
        exact hni hn
      · exact absurd (fun h => hprev h.symm) hch
    · intro n htw hns hnone
      unfold modeTransition
      rw [if_pos hcond]
      simp only [if_pos (show MusicMode.free ≠ s.prevMode from fun h => hprev h.symm)]
      rw [foldIndices_lookup]
      rw [if_pos]
      exact ⟨List.mem_filter.mpr ⟨htw, by simpa using hns⟩, hnone⟩
  · intro hcase n
    rcases hcase with ⟨hfree, hmode⟩ | ⟨hprev, hmode, hne⟩
    · unfold modeTransition
      rw [if_neg (fun h => hmode h.1)]
      rw [if_pos ⟨hfree, hmode⟩]
      simp only [if_pos (show mode ≠ s.prevMode from fun h => hmode (h.trans hfree))]
    · unfold modeTransition
      rw [if_neg (fun h => hmode h.1)]
      rw [if_neg (fun h => hprev h.1)]
      rw [if_pos hne]
      simp only [if_pos hne]

/-- State in C major whose cursor has an entry of 2 for C and nothing else. -/
def cursorWitState : PianoState :=
  ⟨getScaleNotes .C .major, none, none, updateIndex (fun _ => none) .C 2, .major⟩

/-- State in free mode whose cursor has an entry of 2 for C and nothing
else. -/
def cursorWitState2 : PianoState :=
  ⟨twelveNotes, none, none, updateIndex (fun _ => none) .C 2, .free⟩

theorem cursor_mode_transition_policy_witness :
    (modeTransition .C .free cursorWitState).chordTypeIndices .C = some 2 ∧
    (modeTransition .C .free cursorWitState).chordTypeIndices .Cs = some 0 ∧
    (modeTransition .C .minor cursorWitState2).chordTypeIndices .C = none := by
  refine ⟨?_, ?_, ?_⟩
  · exact (((cursor_mode_transition_policy .C .free cursorWitState).1
      (by decide) rfl).1 .C (by decide)).trans (by decide)
  · exact ((cursor_mode_transition_policy .C .free cursorWitState).1
      (by decide) rfl).2 .Cs (by decide) (by decide) (by decide)
  · exact (cursor_mode_transition_policy .C .minor cursorWitState2).2
      (Or.inl ⟨rfl, by decide⟩) .C

/-! ## Bass-note resolution -/

/-- Index of a note in the twelve-note array (`notes.indexOf(note)`). -/
def rootIndexOf (note : NoteName) : Nat :=
  twelveNotes.findIdx (fun n => decide (n = note))

theorem rootIndexOf_spec (note : NoteName) (hnote : note ∈ twelveNotes) :
    twelveNotes.findIdx? (fun n => decide (n = note)) = some (rootIndexOf note) ∧
    rootIndexOf note < 12 := by
  fin_cases hnote <;> exact ⟨rfl, by decide⟩

/-- The bass audio call of `handleKeyPress`, exposed as the branch structure
of the source once the scale guard has passed. -/
theorem handleKeyPress_playedBass (props : PianoProps) (s : PianoState)
    (note : NoteName)
    (hguard : ¬ (props.mode ≠ MusicMode.free ∧ note ∉ s.scaleNotes)) :
    (handleKeyPress props s note).playedBass
      = match props.selectedBassOffset with
        | none => none
        | some off =>
          if s.lastPressedNote = some note then
            match twelveNotes.findIdx? (fun n => decide (n = note)) with
            | none => none
            | some rootIndex =>
              if off = 0 then
                some ((chordNotesOf note (getCurrentChordType props.mode
                    s.scaleNotes s.chordTypeIndices note)).headD 0 - 12)
              else some (48 + ((rootIndex : Int) + off).tmod 12)
          else none := by
  unfold handleKeyPress
  rw [if_neg hguard]
  rfl

theorem handleKeyPress_lastPressed (props : PianoProps) (s : PianoState)
    (note : NoteName)
    (hguard : ¬ (props.mode ≠ MusicMode.free ∧ note ∉ s.scaleNotes)) :
    (handleKeyPress props s note).state.lastPressedNote = some note := by
  unfold handleKeyPress
  rw [if_neg hguard]
  rfl

/-- Props with bass offset −1 over free mode. -/
def bassProps : PianoProps := ⟨.C, .free, 0, 0, .piano, false, some (-1)⟩

/-- Free-mode state recording C as the last-pressed note. -/
def bassState : PianoState := ⟨twelveNotes, none, some .C, fun _ => none, .free⟩

/-- C3 counterexample: for root C and bass offset −1 the code plays bass
pitch 47 — outside the claimed range [48, 59] and different from the
claimed `48 + ((0 + (−1)) mod 12) = 59` — because the JavaScript remainder
of a negative sum is negative. -/
theorem bass_numeric_offset_counterexample :
    (handleKeyPress bassProps bassState .C).playedBass = some 47 ∧
    ¬ (48 ≤ (47 : Int)) ∧
    (47 : Int) ≠ 48 + (((noteValue NoteName.C : Int) + (-1)) % 12) := by
  decide

/-- C3 amended: for every root and numeric bass offset in +1..+5 / −1..−6,
the resolved bass pitch is `48 + jsrem(index(root) + offset, 12)` where
`jsrem` is the JavaScript remainder (sign of the dividend): the pitch always
lies in [42, 59], coincides with the claimed
`48 + ((index(root) + offset) mod 12)` (and hence lies in [48, 59])
whenever `index(root) + offset ≥ 0` — in particular for all positive
offsets — and is independent of the octave and inversion settings (which
are arbitrary here and absent from the resolved value). -/
theorem bass_numeric_offset_amended (props : PianoProps) (s : PianoState)
    (note : NoteName) (off : Int)
    (hoff : props.selectedBassOffset = some off)
    (hrange : (1 ≤ off ∧ off ≤ 5) ∨ (-6 ≤ off ∧ off ≤ -1))
    (hlast : s.lastPressedNote = some note)
    (hplay : props.mode = MusicMode.free ∨ note ∈ s.scaleNotes)
    (hnote : note ∈ twelveNotes) :
    (handleKeyPress props s note).playedBass
      = some (48 + ((rootIndexOf note : Int) + off).tmod 12) ∧
    42 ≤ 48 + ((rootIndexOf note : Int) + off).tmod 12 ∧
    48 + ((rootIndexOf note : Int) + off).tmod 12 ≤ 59 ∧
    (0 ≤ (rootIndexOf note : Int) + off →
      48 + ((rootIndexOf note : Int) + off).tmod 12
        = 48 + ((rootIndexOf note : Int) + off) % 12) := by
  have hguard : ¬ (props.mode ≠ MusicMode.free ∧ note ∉ s.scaleNotes) := by
    rcases hplay with h | h
    · exact fun hc => hc.1 h
    · exact fun hc => hc.2 h
  have hoffne : off ≠ 0 := by rcases hrange with ⟨h1, h2⟩ | ⟨h1, h2⟩ <;> omega
  refine ⟨?_, ?_⟩
  · rw [handleKeyPress_playedBass props s note hguard, hoff]
    simp [hlast, (rootIndexOf_spec note hnote).1, hoffne]
  · rcases hrange with ⟨h1, h2⟩ | ⟨h1, h2⟩ <;>
      fin_cases hnote <;> interval_cases off <;> exact ⟨by decide, by decide, by decide⟩

/-- Props with bass offset 3 over free mode, octave 7 and inversion −2. -/
def bassProps3 : PianoProps := ⟨.C, .free, 7, -2, .piano, false, some 3⟩

/-- Free-mode state recording D as the last-pressed note. -/
def bassState3 : PianoState := ⟨twelveNotes, none, some .D, fun _ => none, .free⟩

theorem bass_numeric_offset_amended_witness :
    (handleKeyPress bassProps3 bassState3 .D).playedBass
      = some (48 + ((rootIndexOf NoteName.D : Int) + 3).tmod 12) ∧
    42 ≤ 48 + ((rootIndexOf NoteName.D : Int) + 3).tmod 12 ∧
    48 + ((rootIndexOf NoteName.D : Int) + 3).tmod 12 ≤ 59 ∧
    (0 ≤ (rootIndexOf NoteName.D : Int) + 3 →
      48 + ((rootIndexOf NoteName.D : Int) + 3).tmod 12
        = 48 + ((rootIndexOf NoteName.D : Int) + 3) % 12) :=
  bass_numeric_offset_amended bassProps3 bassState3 .D 3 rfl
    (Or.inl (by decide)) rfl (Or.inl rfl) (by decide)

theorem chordNotesOf_head (root : NoteName) (t : ChordType) :
    (chordNotesOf root t).head? = some ((noteValue root : Int) + 0 + 60) := by
  cases t <;> rfl

/-- Props with bass offset `BASS` (0) over free mode, octave 1. -/
def bassProps4 : PianoProps := ⟨.C, .free, 1, 0, .piano, false, some 0⟩

/-- C4 counterexample: with octave 1 the chord sounds as [72, 76, 79]
(post-shift lowest note 72), yet the added bass pitch is 48, not
`72 − 12 = 60`: the BASS case reads the chord's notes before the octave
shift is applied. -/
theorem bass_case_counterexample :
    (handleKeyPress bassProps4 bassState .C).playedChord
      = some ([72, 76, 79], InstrumentType.piano) ∧
    (handleKeyPress bassProps4 bassState .C).playedBass = some 48 ∧
    (48 : Int) ≠ 72 - 12 := by
  decide

/-- C4 amended: when the bass offset is BASS (encoded as 0) and a key is
pressed, the added bass pitch is the chord's pre-octave-shift,
pre-inversion built root pitch transposed one octave down, i.e.
`index(root) + 48`; in particular it is 48 for root C at every octave and
inversion setting. -/
theorem bass_case_amended (props : PianoProps) (s : PianoState)
    (note : NoteName)
    (hoff : props.selectedBassOffset = some 0)
    (hlast : s.lastPressedNote = some note)
    (hplay : props.mode = MusicMode.free ∨ note ∈ s.scaleNotes)
    (hnote : note ∈ twelveNotes) :
    (handleKeyPress props s note).playedBass = some ((noteValue note : Int) + 48) := by
  have hguard : ¬ (props.mode ≠ MusicMode.free ∧ note ∉ s.scaleNotes) := by
    rcases hplay with h | h
    · exact fun hc => hc.1 h
    · exact fun hc => hc.2 h
  rw [handleKeyPress_playedBass props s note hguard, hoff]
  have hh := chordNotesOf_head note
    (getCurrentChordType props.mode s.scaleNotes s.chordTypeIndices note)
  simp [hlast, (rootIndexOf_spec note hnote).1, hh]
  omega

/-- Props with bass offset `BASS` (0) over free mode, octave 2 and
inversion 1. -/
def bassProps4b : PianoProps := ⟨.C, .free, 2, 1, .piano, false, some 0⟩

theorem bass_case_amended_witness :
    (handleKeyPress bassProps4b bassState .C).playedBass = some 48 := by
  have h := bass_case_amended bassProps4b bassState .C rfl rfl (Or.inl rfl) (by decide)
  exact h.trans (by decide)

/-- Props with bass offset 0 and nothing pressed yet, for the C5
counterexample. -/
def bassProps5 : PianoProps := ⟨.C, .free, 0, 0, .piano, false, some 0⟩

/-- Free-mode state with no last-pressed note. -/
def bassState5 : PianoState := ⟨twelveNotes, none, none, fun _ => none, .free⟩

/-- C5 counterexample: with a non-null bass offset, pressing D makes D the
last-pressed note, but no bass note is triggered for that press — the
handler compares against the pre-press last-pressed note. -/
theorem bass_last_pressed_counterexample :
    (handleKeyPress bassProps5 bassState5 .D).state.lastPressedNote = some NoteName.D ∧
    (handleKeyPress bassProps5 bassState5 .D).playedBass = none := by
  decide

/-- C5 amended: with a non-null bass offset, every key press makes the
pressed note the last-pressed note, but the bass note is triggered for that
press's audio exactly when the pressed note was already the last-pressed
note before the press (the handler reads the pre-press value); the bass
suffix is appended only to the display label of the note recorded as
last-pressed, and every other note's label carries no bass suffix. -/
theorem bass_last_pressed_amended (props : PianoProps) (s : PianoState)
    (note : NoteName)
    (hbass : props.selectedBassOffset ≠ none)
    (hplay : props.mode = MusicMode.free ∨ note ∈ s.scaleNotes)
    (hnote : note ∈ twelveNotes) :
    (handleKeyPress props s note).state.lastPressedNote = some note ∧
    ((handleKeyPress props s note).playedBass.isSome ↔
      s.lastPressedNote = some note) ∧
    (∀ n, s.lastPressedNote ≠ some n →
      getChordName props s n
        = if props.mode ≠ MusicMode.free ∧ n ∉ s.scaleNotes then ""
          else chordBaseName props s n) ∧
    (∀ n, s.lastPressedNote = some n →
      ¬ (props.mode ≠ MusicMode.free ∧ n ∉ s.scaleNotes) →
      getChordName props s n
        = chordBaseName props s n ++ getBassNote n props.selectedBassOffset) := by
  have hguard : ¬ (props.mode ≠ MusicMode.free ∧ note ∉ s.scaleNotes) := by
    rcases hplay with h | h
    · exact fun hc => hc.1 h
    · exact fun hc => hc.2 h
  refine ⟨handleKeyPress_lastPressed props s note hguard, ?_, ?_, ?_⟩
  · rw [handleKeyPress_playedBass props s note hguard]
    cases hb : props.selectedBassOffset with
    | none => exact absurd hb hbass
    | some off =>
      by_cases hlast : s.lastPressedNote = some note
      · simp [hlast, (rootIndexOf_spec note hnote).1]
        by_cases hz : off = 0 <;> simp [hz]
      · simp [hlast]
  · intro n hn
    unfold getChordName
    by_cases hg : props.mode ≠ MusicMode.free ∧ n ∉ s.scaleNotes
    · rw [if_pos hg, if_pos hg]
    · rw [if_neg hg, if_neg hg]
      rw [if_neg (fun hc => hn hc.1)]
  · intro n hln hg
    unfold getChordName
    rw [if_neg hg]
    rw [if_pos ⟨hln, hbass⟩]

/-- Props with bass offset 2 over free mode, for the C5 witness. -/
def bassProps5b : PianoProps := ⟨.C, .free, 0, 0, .piano, false, some 2⟩

theorem bass_last_pressed_amended_witness :
    (handleKeyPress bassProps5b bassState .C).state.lastPressedNote = some NoteName.C ∧
    (handleKeyPress bassProps5b bassState .C).playedBass.isSome ∧
    getChordName bassProps5b bassState .D
      = (if bassProps5b.mode ≠ MusicMode.free ∧ NoteName.D ∉ bassState.scaleNotes then ""
         else chordBaseName bassProps5b bassState .D) ∧
    getChordName bassProps5b bassState .C
      = chordBaseName bassProps5b bassState .C ++ getBassNote .C bassProps5b.selectedBassOffset := by
  have h := bass_last_pressed_amended bassProps5b bassState .C (by decide)
    (Or.inl rfl) (by decide)
  exact ⟨h.1, (h.2.1).mpr rfl, h.2.2.1 .D (by decide), h.2.2.2 .C rfl (by decide)⟩

end SAFE
